import Mathlib

/-!
Shallow embedding of the-media-organizer (Rust).

The repository relocates media files from a source tree into a
destination layout keyed by capture date.  The embedding below
translates the pure logic of each source file:

  * src/date.rs            -> Date, Date.new, Date.get_month, Date.get_year
  * src/organizer/photos.rs-> PhotoOrganizer.*  (exif reading is an oracle)
  * src/organizer/videos.rs-> VideoOrganizer.*
  * src/organizer.rs       -> Organizer.move_file (on an explicit FS state)
                              and Organizer.organize (the dispatcher loop,
                              with classifier outcomes and the move as
                              state-passing oracles)
  * src/directory.rs       -> FilesIter modeled as a fueled run (runIter)
                              over an abstract filesystem SymFS
  * src/config.rs, main.rs -> Config.new and mainOrganizers

Machine integers: the Rust code uses u16/u8 only for validated
year/month values and comparisons, so they are modeled as Nat; the
overflow-relevant spot (str::parse::<u16> / <u8>) is modeled by an
explicit bound check (parseNatBounded).

Strings and paths: Rust PathBuf is modeled as a list of components
(FPath); filenames handed to the regexes are lists of characters.
eyre::Report is modeled as the list of context messages of its chain
(Report); wrapping with a plain message prepends one message, wrapping
with another report prepends that report chain.  Error message texts
follow the source, with contractions spelled out (no apostrophes).
-/

/-- File paths are modeled as lists of path components (Rust PathBuf);
PathBuf::join of one component is list append of a singleton. -/
abbrev FPath := List String

/-- An eyre error report, modeled as the chain of displayed context
messages, outermost first. -/
abbrev Report := List String

/-- Result of running Rust code that can also panic: .panic models a
.unwrap() taken on an Err value (no catch anywhere in this program). -/
inductive RunResult (α : Type) where
  | ok : α → RunResult α
  | err : Report → RunResult α
  | panic : RunResult α
deriving Repr, DecidableEq

/-- eyre wrap_err with a string context on a Result: prepends the
message to the chain of an Err, leaves Ok unchanged. -/
def wrapE {α : Type} (msg : String) : Except Report α → Except Report α
  | .ok a => .ok a
  | .error e => .error (msg :: e)

/-- wrap_err with a string context, on a possibly panicking run:
a panic unwinds through wrap_err. -/
def wrapErr {α : Type} (msg : String) : RunResult α → RunResult α
  | .ok a => .ok a
  | .err e => .err (msg :: e)
  | .panic => .panic

/-- wrap_err taking a whole eyre Report as the context object
(photos.rs line 33 wraps with exif_date.unwrap_err()): the context
report chain is prepended. -/
def wrapReport {α : Type} (ctx : Report) : RunResult α → RunResult α
  | .ok a => .ok a
  | .err e => .err (ctx ++ e)
  | .panic => .panic

/-- Lift an infallible-to-panic Result into a run result. -/
def runOfExcept {α : Type} : Except Report α → RunResult α
  | .ok a => .ok a
  | .error e => .err e

/-! ## src/date.rs -/

/-- Date from src/date.rs: year and month only (u16 and u8 in Rust,
always within Nat range here). -/
structure Date where
  year : Nat
  month : Nat
deriving Repr, DecidableEq

/-- Date::new from src/date.rs lines 13-28: month checked first
(1..=12), then year (1839..=3000). -/
def Date.new (year month : Nat) : Except Report Date :=
  if month < 1 ∨ month > 12 then
    .error ["invalid month, should be between 1 and 12 got " ++ toString month]
  else if year < 1839 ∨ year > 3000 then
    .error ["invalid year, should be between 1839 and 3000 got " ++ toString year]
  else
    .ok ⟨year, month⟩

/-- Date::get_month from src/date.rs lines 30-46: fixed month-label
table, empty string outside 1..12. -/
def Date.get_month (d : Date) : String :=
  match d.month with
  | 1 => "01 - January"
  | 2 => "02 - February"
  | 3 => "03 - March"
  | 4 => "04 - April"
  | 5 => "05 - May"
  | 6 => "06 - June"
  | 7 => "07 - July"
  | 8 => "08 - August"
  | 9 => "09 - September"
  | 10 => "10 - October"
  | 11 => "11 - November"
  | 12 => "12 - December"
  | _ => ""

/-- Date::get_year from src/date.rs lines 48-50 (u16 Display equals
Nat toString on these values). -/
def Date.get_year (d : Date) : String := toString d.year

/-! ## Digit parsing (str::parse::<u16> and ::<u8>) -/

/-- Numeric value of a digit string read left to right. -/
def digitsVal (ds : List Char) : Nat :=
  ds.foldl (fun a c => a * 10 + (c.toNat - 48)) 0

/-- Model of Rust str::parse into an unsigned integer type with
exclusive bound 2^w: succeeds exactly on a nonempty ASCII digit string
(optionally with a leading plus sign) whose value fits the type.
Non-ASCII digits (which the Unicode-aware regex class can capture) make
the parse fail. -/
def parseNatBounded (bound : Nat) (ds : List Char) : Option Nat :=
  match ds with
  | '+' :: rest =>
    if rest ≠ [] ∧ rest.all Char.isDigit = true ∧ digitsVal rest < bound then
      some (digitsVal rest)
    else none
  | _ =>
    if ds ≠ [] ∧ ds.all Char.isDigit = true ∧ digitsVal ds < bound then
      some (digitsVal ds)
    else none

/-- str::parse::<u16>. -/
def parseU16 : List Char → Option Nat := parseNatBounded 65536

/-- str::parse::<u8>. -/
def parseU8 : List Char → Option Nat := parseNatBounded 256

/-! ## The two filename regexes

Rust regex `\d` is Unicode-aware (it matches the Unicode class Nd, a
strict superset of the ASCII digits), so both matchers are
parameterized by the digit class.  Instantiated with Char.isDigit they
are exact on ASCII haystacks; instantiated with isNdSample (ASCII
digits plus the Arabic-Indic digit block U+0660-U+0669, a subset of
Nd) a successful match also implies a successful match of the real
regex.  `.` matches any character except a newline; `^` and `$` anchor
at the ends of the haystack (default, non-multiline mode). -/

/-- ASCII digits together with the Arabic-Indic digits U+0660-U+0669;
a decidable subset of the Unicode digit class Nd that \d matches. -/
def isNdSample (c : Char) : Bool :=
  c.isDigit || (0x660 ≤ c.toNat && c.toNat ≤ 0x669)

/-- Longest leading run of digit characters (the greedy \d+; no
backtracking is needed because the following literal is never a
digit). -/
def takeDigitsWith (digit : Char → Bool) : List Char → List Char × List Char
  | [] => ([], [])
  | c :: cs =>
    if digit c then
      let r := takeDigitsWith digit cs
      (c :: r.1, r.2)
    else ([], c :: cs)

/-- Capture groups of the photo filename regex
`^IMG\-(\d{4})(\d{2})\d{2}\-WA\d+\..*$` (photos.rs line 20): literal
IMG-, four digit year capture, two digit month capture, two more
digits, literal -WA, one or more digits, a literal dot, then any
newline-free tail. -/
def photoCapturesWith (digit : Char → Bool) (cs : List Char) : Option (List Char × List Char) :=
  match cs with
  | p1 :: p2 :: p3 :: p4 :: y1 :: y2 :: y3 :: y4 :: m1 :: m2 :: d1 :: d2 :: q1 :: q2 :: q3 :: rest =>
    if [p1, p2, p3, p4] = ['I', 'M', 'G', '-'] ∧ [q1, q2, q3] = ['-', 'W', 'A'] ∧
        ([y1, y2, y3, y4, m1, m2, d1, d2].all digit) = true then
      match takeDigitsWith digit rest with
      | ([], _) => none
      | (_ :: _, '.' :: tail) =>
        if tail.all (fun c => c != '\n') = true then some ([y1, y2, y3, y4], [m1, m2]) else none
      | (_ :: _, _) => none
    else none
  | _ => none

/-- Photo regex with the ASCII digit class. -/
def photoCaptures : List Char → Option (List Char × List Char) :=
  photoCapturesWith Char.isDigit

/-- Photo regex with the sampled Unicode digit class. -/
def photoCapturesNd : List Char → Option (List Char × List Char) :=
  photoCapturesWith isNdSample

/-- The tail `.+\.mp4$`: the remainder must consist of a nonempty
newline-free part followed by the literal suffix .mp4 (the suffix
position is forced by the end anchor). -/
def videoTailOk (rest : List Char) : Bool :=
  let t := rest.take (rest.length - 4)
  decide (rest.drop (rest.length - 4) = ['.', 'm', 'p', '4'])
    && !t.isEmpty && t.all (fun c => c != '\n')

/-- The video regex body after the optional prefix:
`(\d{4})(\d{2})\d{2}[_-].+\.mp4$`. -/
def videoCapturesCore (digit : Char → Bool) (cs : List Char) : Option (List Char × List Char) :=
  match cs with
  | y1 :: y2 :: y3 :: y4 :: m1 :: m2 :: d1 :: d2 :: s :: rest =>
    if ([y1, y2, y3, y4, m1, m2, d1, d2].all digit) = true ∧ (s = '-' ∨ s = '_') ∧
        videoTailOk rest = true then
      some ([y1, y2, y3, y4], [m1, m2])
    else none
  | _ => none

/-- Capture groups of the video filename regex
`^(?:VID[-_])?(\d{4})(\d{2})\d{2}[_-].+\.mp4$` (videos.rs line 22).
When the haystack starts with VID followed by - or _, the optional
group must be taken (the body cannot start at V, which is not a
digit); otherwise the body must match the whole haystack. -/
def videoCapturesWith (digit : Char → Bool) (cs : List Char) : Option (List Char × List Char) :=
  match cs with
  | v1 :: v2 :: v3 :: s :: rest =>
    if [v1, v2, v3] = ['V', 'I', 'D'] ∧ (s = '-' ∨ s = '_') then videoCapturesCore digit rest
    else videoCapturesCore digit cs
  | _ => videoCapturesCore digit cs

/-- Video regex with the ASCII digit class. -/
def videoCaptures : List Char → Option (List Char × List Char) :=
  videoCapturesWith Char.isDigit

/-! ## src/organizer/photos.rs -/

/-- PhotoOrganizer::date_from_filename (photos.rs lines 36-58),
parameterized by the digit class of the regex.  A missing file name
is the first error; the capture-group extraction itself cannot fail
on a match (the regex contains both groups), and the unchecked
parse().unwrap() calls are modeled by the panic outcome.  The input
is the file_name component of the path (None when Path::file_name
returns None); filenames are kept as character lists, so the to_str
conversion always succeeds in this model. -/
def PhotoOrganizer.date_from_filenameWith (digit : Char → Bool)
    (fileName : Option (List Char)) : RunResult Date :=
  match fileName with
  | none => .err ["failed to retrieve photo filename"]
  | some name =>
    match photoCapturesWith digit name with
    | none => .err ["file name does not have date format"]
    | some (y, m) =>
      match parseU16 y with
      | none => .panic
      | some yv =>
        match parseU8 m with
        | none => .panic
        | some mv => runOfExcept (Date.new yv mv)

/-- date_from_filename with the ASCII digit class. -/
def PhotoOrganizer.date_from_filename : Option (List Char) → RunResult Date :=
  PhotoOrganizer.date_from_filenameWith Char.isDigit

/-- date_from_filename with the sampled Unicode digit class. -/
def PhotoOrganizer.date_from_filenameNd : Option (List Char) → RunResult Date :=
  PhotoOrganizer.date_from_filenameWith isNdSample

/-- PhotoOrganizer::date_from_exif (photos.rs lines 60-77): the file
opening, container reading and tag extraction are I/O outside the
model, collapsed into an oracle that either fails with some report or
yields the raw (year, month) read from the DateTimeOriginal ASCII
value; the final Date::new validation is the code. -/
def PhotoOrganizer.date_from_exif (exifRaw : Except Report (Nat × Nat)) :
    Except Report Date :=
  match exifRaw with
  | .error e => .error e
  | .ok ym => Date.new ym.1 ym.2

/-- PhotoOrganizer::get_date (photos.rs lines 24-34): the exif path is
attempted first and wrapped; only if it errs is the filename path
attempted, whose error is wrapped with its own message and then with
the whole exif report. -/
def PhotoOrganizer.get_dateWith (digit : Char → Bool)
    (exifRaw : Except Report (Nat × Nat)) (fileName : Option (List Char)) :
    RunResult Date :=
  match wrapE "failed to get date from exif" (PhotoOrganizer.date_from_exif exifRaw) with
  | .ok d => .ok d
  | .error e =>
    wrapReport e
      (wrapErr "failed to get date from filename"
        (PhotoOrganizer.date_from_filenameWith digit fileName))

/-- get_date with the ASCII digit class. -/
def PhotoOrganizer.get_date (exifRaw : Except Report (Nat × Nat))
    (fileName : Option (List Char)) : RunResult Date :=
  PhotoOrganizer.get_dateWith Char.isDigit exifRaw fileName

/-- PhotoOrganizer::destination_dir (photos.rs lines 98-104):
dst_dir/year/month-label. -/
def PhotoOrganizer.destination_dir (dst_dir : FPath)
    (exifRaw : Except Report (Nat × Nat)) (fileName : Option (List Char)) :
    RunResult FPath :=
  match PhotoOrganizer.get_date exifRaw fileName with
  | .ok d => .ok (dst_dir ++ [d.get_year, d.get_month])
  | .err e => .err e
  | .panic => .panic

/-! ## src/organizer/videos.rs -/

/-- VideoOrganizer::get_date (videos.rs lines 27-47), parameterized by
the digit class; same parse().unwrap() panic modeling as for photos. -/
def VideoOrganizer.get_dateWith (digit : Char → Bool)
    (fileName : Option (List Char)) : RunResult Date :=
  match fileName with
  | none => .err ["failed to read file name"]
  | some name =>
    match videoCapturesWith digit name with
    | none => .err ["file name does not contain date in the format YYYYMMDD"]
    | some (y, m) =>
      match parseU16 y with
      | none => .panic
      | some yv =>
        match parseU8 m with
        | none => .panic
        | some mv => runOfExcept (Date.new yv mv)

/-- get_date with the ASCII digit class. -/
def VideoOrganizer.get_date : Option (List Char) → RunResult Date :=
  VideoOrganizer.get_dateWith Char.isDigit

/-- get_date with the sampled Unicode digit class. -/
def VideoOrganizer.get_dateNd : Option (List Char) → RunResult Date :=
  VideoOrganizer.get_dateWith isNdSample

/-- VideoOrganizer::destination_dir (videos.rs lines 68-73):
dst_dir/year, no month component. -/
def VideoOrganizer.destination_dir (dst_dir : FPath)
    (fileName : Option (List Char)) : RunResult FPath :=
  match wrapErr "failed to generate destination dir" (VideoOrganizer.get_date fileName) with
  | .ok d => .ok (dst_dir ++ [d.get_year])
  | .err e => .err e
  | .panic => .panic

/-! ## src/organizer.rs — Organizer::move_file

The filesystem is an explicit state: the sets of existing directories
and files, plus oracles for the OS-level outcomes of create_dir_all
and rename (permissions, cross-device, ...).  Path::file_name is the
last component; join appends a component. -/

/-- Abstract filesystem state for the mover. -/
structure FS where
  dirs : List FPath
  files : List FPath
  createOk : FPath → Bool
  renameOk : FPath → FPath → Bool

/-- All nonempty prefixes of a path: the directories created by
fs::create_dir_all. -/
def pathAncestors : FPath → List FPath
  | [] => []
  | c :: rest => [c] :: (pathAncestors rest).map (fun p => c :: p)

/-- fs::create_dir_all on the state: adds the directory and all its
ancestors; touches no file. -/
def FS.create_dir_all (fs : FS) (d : FPath) : FS :=
  { fs with dirs := pathAncestors d ++ fs.dirs }

/-- The part of Organizer::move_file after the destination dir is
known to exist (organizer.rs lines 79-89): take the file name, fail
with a conflict error when a same-named file already exists at the
destination, otherwise rename. -/
def Organizer.move_fileAfterDirs (fs : FS) (file dst_dir : FPath) :
    Except Report Unit × FS :=
  match file.getLast? with
  | none => (.error ["failed to get file name"], fs)
  | some name =>
    let dst_path := dst_dir ++ [name]
    if dst_path ∈ fs.files then
      (.error ["a file with the same name already exists in the destination path"], fs)
    else if fs.renameOk file dst_path then
      (.ok (), { fs with files := dst_path :: fs.files.filter (fun p => p ≠ file) })
    else
      (.error ["failed to move file to destination dir"], fs)

/-- Organizer::move_file (organizer.rs lines 74-90): create the
destination dir when absent (propagating a creation failure), then
the conflict-checked rename.  Returns the Rust Result alongside the
new filesystem state. -/
def Organizer.move_file (fs : FS) (file dst_dir : FPath) :
    Except Report Unit × FS :=
  if dst_dir ∈ fs.dirs then
    Organizer.move_fileAfterDirs fs file dst_dir
  else if fs.createOk dst_dir then
    Organizer.move_fileAfterDirs (fs.create_dir_all dst_dir) file dst_dir
  else
    (.error ["failed to create destination dir"], fs)

/-! ## src/organizer.rs — the dispatcher (Organizer::organize)

organize iterates the enumerated files; for each file it tries the
registered MediaTypeOrganizers in order, skipping those whose
should_organize is false, logging and continuing on destination_dir or
move failure, and breaking out of the classifier loop on the first
successful move.  The trait objects are modeled by records of their
two methods (destination_dir may read the filesystem state σ), the
move by a state-passing oracle, and the eprintln side channel by an
explicit event log. -/

/-- A MediaTypeOrganizer trait object (organizer.rs lines 9-14): its
two methods, with destination_dir reading the ambient filesystem
state σ (the photo variant reads exif data from the file). -/
structure MediaTypeOrganizerSpec (σ : Type) where
  should_organize : FPath → Bool
  destination_dir : σ → FPath → Except Report FPath

/-- One entry of the diagnostic side channel / control-flow trace of
organize: classifier index i handling file f. -/
inductive Event where
  | destCall (i : Nat) (f : FPath)
  | destFail (i : Nat) (f : FPath)
  | moveOk (i : Nat) (f : FPath)
  | moveFail (i : Nat) (f : FPath)
deriving Repr, DecidableEq

/-- The inner classifier loop of Organizer::organize (organizer.rs
lines 45-69) on one file: i is the index of the first classifier of
orgs in the full registration order.  Returns the final state and the
trace; a trace ending in moveOk is the break. -/
def Organizer.processFile {σ : Type} (move : σ → FPath → FPath → Except Report Unit × σ)
    (f : FPath) : List (MediaTypeOrganizerSpec σ) → Nat → σ → σ × List Event
  | [], _, s => (s, [])
  | o :: rest, i, s =>
    if o.should_organize f then
      match o.destination_dir s f with
      | .error _ =>
        let r := Organizer.processFile move f rest (i + 1) s
        (r.1, Event.destCall i f :: Event.destFail i f :: r.2)
      | .ok d =>
        let mv := move s f d
        match mv.1 with
        | .ok _ => (mv.2, [Event.destCall i f, Event.moveOk i f])
        | .error _ =>
          let r := Organizer.processFile move f rest (i + 1) mv.2
          (r.1, Event.destCall i f :: Event.moveFail i f :: r.2)
    else
      Organizer.processFile move f rest (i + 1) s

/-- Organizer::organize (organizer.rs lines 43-72): the outer loop
over the enumerated files (the FilesIter yield sequence), threading
the filesystem state, concatenating the diagnostic log, and returning
Ok(()) at the end. -/
def Organizer.organize {σ : Type} (move : σ → FPath → FPath → Except Report Unit × σ)
    (orgs : List (MediaTypeOrganizerSpec σ)) :
    List FPath → σ → Except Report Unit × σ × List Event
  | [], s => (.ok (), s, [])
  | f :: rest, s =>
    let r1 := Organizer.processFile move f orgs 0 s
    let r2 := Organizer.organize move orgs rest r1.1
    (r2.1, r2.2.1, r1.2 ++ r2.2.2)

/-! ## src/directory.rs — FilesIter

The filesystem seen by the enumerator is abstract: readDir yields the
successfully read entries of a directory (or none when fs::read_dir
fails; entries that fail to read are simply absent), isSymlink is
path.read_link().is_ok(), and isDir / isFile are the fs metadata
checks.  The iterator state is the pair of owned stacks; a fueled
runner collects the whole yield sequence together with the list of
directories popped for expansion. -/

/-- The filesystem as seen by FilesIter. -/
structure SymFS where
  readDir : FPath → Option (List FPath)
  isSymlink : FPath → Bool
  isDir : FPath → Bool
  isFile : FPath → Bool

/-- The entry loop of FilesIter::next (directory.rs lines 35-52):
symlinked entries are skipped, directories are pushed on the dir
stack, plain files on the file buffer, anything else is skipped.
Stacks have their top at the head. -/
def FilesIter.processEntries (fs : SymFS) :
    List FPath → List FPath → List FPath → List FPath × List FPath
  | [], dirs, files => (dirs, files)
  | p :: rest, dirs, files =>
    if fs.isSymlink p then FilesIter.processEntries fs rest dirs files
    else if fs.isDir p then FilesIter.processEntries fs rest (p :: dirs) files
    else if fs.isFile p then FilesIter.processEntries fs rest dirs (p :: files)
    else FilesIter.processEntries fs rest dirs files

/-- Runs FilesIter (directory.rs lines 24-59) to exhaustion of the
given fuel: pop a buffered file and yield it, otherwise pop a pending
directory, expand its entries and continue.  Returns the yield
sequence and the list of directories popped for expansion (the
attempted read_dir calls), in order. -/
def FilesIter.runIter (fs : SymFS) : Nat → List FPath → List FPath → List FPath × List FPath
  | 0, _, _ => ([], [])
  | fuel + 1, dirs, files =>
    match files with
    | f :: fRest =>
      let r := FilesIter.runIter fs fuel dirs fRest
      (f :: r.1, r.2)
    | [] =>
      match dirs with
      | [] => ([], [])
      | d :: dRest =>
        match fs.readDir d with
        | none =>
          let r := FilesIter.runIter fs fuel dRest []
          (r.1, d :: r.2)
        | some entries =>
          let st := FilesIter.processEntries fs entries dRest []
          let r := FilesIter.runIter fs fuel st.1 st.2
          (r.1, d :: r.2)

/-- The whole FilesIter run from its initial state (directory.rs
lines 13-18: the root on the dir stack, no buffered files). -/
def FilesIter.run (fs : SymFS) (fuel : Nat) (root : FPath) : List FPath × List FPath :=
  FilesIter.runIter fs fuel [root] []

/-- Reachability from the enumeration root through directory entries
that are not symlinks: the paths a traversal that skips every
symlinked entry can ever touch. -/
inductive NoSymReach (fs : SymFS) (root : FPath) : FPath → Prop
  | start : NoSymReach fs root root
  | step {d p : FPath} {es : List FPath} : NoSymReach fs root d →
      fs.readDir d = some es → p ∈ es → fs.isSymlink p = false →
      NoSymReach fs root p

/-! ## src/config.rs and src/main.rs -/

/-- The validated configuration (config.rs lines 85-90); paths are
kept as the strings they were built from. -/
structure Config where
  media_src : String
  photos_dst : String
  videos_dst : String
deriving Repr, DecidableEq

/-- Config::new (config.rs lines 104-143): the media source must be
an existing directory; at least one of the two destinations must be
nonempty; each nonempty destination must be an existing directory,
an empty one becomes the empty path (PathBuf::new()).  Directory
existence is an oracle over path strings. -/
def Config.new (isDir : String → Bool) (media_src_str photos_dst_str videos_dst_str : String) :
    Except Report Config :=
  if isDir media_src_str = false then
    .error ["media source dir does not exist"]
  else if photos_dst_str.isEmpty && videos_dst_str.isEmpty then
    .error ["at least one of photos_dst or videos_dst should not be empty"]
  else if !photos_dst_str.isEmpty && isDir photos_dst_str = false then
    .error ["photos destination dir does not exist"]
  else if !videos_dst_str.isEmpty && isDir videos_dst_str = false then
    .error ["videos destination dir does not exist"]
  else
    .ok ⟨media_src_str,
         if photos_dst_str.isEmpty then "" else photos_dst_str,
         if videos_dst_str.isEmpty then "" else videos_dst_str⟩

/-- A classifier as registered by main, tagged with its destination
root. -/
inductive RegisteredOrganizer where
  | photo (dst_dir : String)
  | video (dst_dir : String)
deriving Repr, DecidableEq

/-- The organizer registration of main (main.rs lines 17-39): a
PhotoOrganizer is pushed whenever photos_dst converts to a unicode
str — which in this string model is always — and a VideoOrganizer
likewise; neither push is guarded by the destination being
nonempty. -/
def mainOrganizers (cfg : Config) : List RegisteredOrganizer :=
  [RegisteredOrganizer.photo cfg.photos_dst, RegisteredOrganizer.video cfg.videos_dst]

/-! ## Helper lemmas -/

/-- A successful Date::new yields exactly the given components, and
they are range-valid. -/
theorem dateNew_ok_bounds {year month : Nat} {d : Date}
    (h : Date.new year month = .ok d) :
    d = ⟨year, month⟩ ∧ 1839 ≤ year ∧ year ≤ 3000 ∧ 1 ≤ month ∧ month ≤ 12 := by
  simp only [Date.new] at h
  split_ifs at h with h1 h2
  cases h
  exact ⟨rfl, by omega, by omega, by omega, by omega⟩

theorem wrapE_ok {α : Type} {msg : String} {r : Except Report α} {a : α} :
    wrapE msg r = .ok a ↔ r = .ok a := by
  cases r <;> simp [wrapE]

theorem wrapE_error {α : Type} {msg : String} {r : Except Report α} {e : Report} :
    r = .error e → wrapE msg r = .error (msg :: e) := by
  intro h; subst h; rfl

theorem wrapErr_ok {α : Type} {msg : String} {r : RunResult α} {a : α} :
    wrapErr msg r = .ok a ↔ r = .ok a := by
  cases r <;> simp [wrapErr]

theorem wrapReport_ok {α : Type} {ctx : Report} {r : RunResult α} {a : α} :
    wrapReport ctx r = .ok a ↔ r = .ok a := by
  cases r <;> simp [wrapReport]

theorem runOfExcept_ok {α : Type} {r : Except Report α} {a : α} :
    runOfExcept r = .ok a ↔ r = .ok a := by
  cases r <;> simp [runOfExcept]

/-- A date produced by the photo filename path is range-valid. -/
theorem photo_date_from_filename_bounds {digit : Char → Bool}
    {fileName : Option (List Char)} {d : Date}
    (h : PhotoOrganizer.date_from_filenameWith digit fileName = .ok d) :
    1839 ≤ d.year ∧ d.year ≤ 3000 ∧ 1 ≤ d.month ∧ d.month ≤ 12 := by
  simp only [PhotoOrganizer.date_from_filenameWith] at h
  split at h
  · simp at h
  · split at h
    · simp at h
    · split at h
      · simp at h
      · split at h
        · simp at h
        · rw [runOfExcept_ok] at h
          obtain ⟨hd, hb⟩ := dateNew_ok_bounds h
          subst hd; exact hb

/-- A date produced by the exif path is range-valid. -/
theorem photo_date_from_exif_bounds {exifRaw : Except Report (Nat × Nat)} {d : Date}
    (h : PhotoOrganizer.date_from_exif exifRaw = .ok d) :
    1839 ≤ d.year ∧ d.year ≤ 3000 ∧ 1 ≤ d.month ∧ d.month ≤ 12 := by
  simp only [PhotoOrganizer.date_from_exif] at h
  split at h
  · simp at h
  · obtain ⟨hd, hb⟩ := dateNew_ok_bounds h
    subst hd; exact hb

/-- A successful get_date comes from the exif path or from the
filename path. -/
theorem photo_get_date_ok_cases {digit : Char → Bool}
    {exifRaw : Except Report (Nat × Nat)} {fileName : Option (List Char)} {d : Date}
    (h : PhotoOrganizer.get_dateWith digit exifRaw fileName = .ok d) :
    PhotoOrganizer.date_from_exif exifRaw = .ok d ∨
      PhotoOrganizer.date_from_filenameWith digit fileName = .ok d := by
  simp only [PhotoOrganizer.get_dateWith] at h
  split at h
  · rename_i heq
    injection h with h
    subst h
    exact Or.inl (wrapE_ok.mp heq)
  · rw [wrapReport_ok, wrapErr_ok] at h
    exact Or.inr h

/-- Any date resolved by PhotoOrganizer::get_date is range-valid. -/
theorem photo_get_date_bounds {digit : Char → Bool}
    {exifRaw : Except Report (Nat × Nat)} {fileName : Option (List Char)} {d : Date}
    (h : PhotoOrganizer.get_dateWith digit exifRaw fileName = .ok d) :
    1839 ≤ d.year ∧ d.year ≤ 3000 ∧ 1 ≤ d.month ∧ d.month ≤ 12 := by
  rcases photo_get_date_ok_cases h with h | h
  · exact photo_date_from_exif_bounds h
  · exact photo_date_from_filename_bounds h

/-! ## Claim theorems -/

/-- C5: for every year in [1839,3000] and month in [1,12], CaptureDate
construction (Date::new) succeeds and yields a value holding exactly
that year and month; for every input with year or month outside the
ranges it fails; and a constructed value is always range-valid. -/
theorem c5_capture_date_range (year month : Nat) :
    (1839 ≤ year ∧ year ≤ 3000 ∧ 1 ≤ month ∧ month ≤ 12 →
      Date.new year month = .ok ⟨year, month⟩) ∧
    (year < 1839 ∨ 3000 < year ∨ month < 1 ∨ 12 < month →
      ∃ e, Date.new year month = .error e) ∧
    (∀ d, Date.new year month = .ok d →
      d = ⟨year, month⟩ ∧ 1839 ≤ d.year ∧ d.year ≤ 3000 ∧ 1 ≤ d.month ∧ d.month ≤ 12) := by
  refine ⟨fun h => ?_, fun h => ?_, fun d hd => ?_⟩
  · simp only [Date.new]
    rw [if_neg (by omega), if_neg (by omega)]
  · simp only [Date.new]
    split_ifs with h1 h2
    · exact ⟨_, rfl⟩
    · exact ⟨_, rfl⟩
    · omega
  · obtain ⟨hd', hb⟩ := dateNew_ok_bounds hd
    subst hd'
    exact ⟨rfl, hb⟩

/-- Witness for C5 at year 2020, month 4 (success) and month 0
(failure). -/
theorem c5_capture_date_range_witness :
    Date.new 2020 4 = .ok ⟨2020, 4⟩ ∧ ∃ e, Date.new 2020 0 = .error e :=
  ⟨(c5_capture_date_range 2020 4).1 (by omega),
   (c5_capture_date_range 2020 0).2.1 (by omega)⟩

/-- C1: when a file with the same name already exists at the computed
destination path, Organizer::move_file fails with the conflict error
and the filesystem state — in particular the source file — is
untouched: no overwrite, no renaming. -/
theorem c1_move_conflict (fs : FS) (file dst_dir : FPath) (name : String)
    (hname : file.getLast? = some name)
    (hdir : dst_dir ∈ fs.dirs)
    (hconflict : dst_dir ++ [name] ∈ fs.files) :
    Organizer.move_file fs file dst_dir =
      (.error ["a file with the same name already exists in the destination path"], fs) := by
  simp only [Organizer.move_file, if_pos hdir, Organizer.move_fileAfterDirs, hname]
  rw [if_pos hconflict]

/-- Witness for C1: a destination already holding a.jpg rejects the
move of s/a.jpg and leaves the state unchanged. -/
theorem c1_move_conflict_witness :
    Organizer.move_file
        ⟨[["d"]], [["d", "a.jpg"], ["s", "a.jpg"]], fun _ => true, fun _ _ => true⟩
        ["s", "a.jpg"] ["d"] =
      (.error ["a file with the same name already exists in the destination path"],
        ⟨[["d"]], [["d", "a.jpg"], ["s", "a.jpg"]], fun _ => true, fun _ _ => true⟩) :=
  c1_move_conflict
    ⟨[["d"]], [["d", "a.jpg"], ["s", "a.jpg"]], fun _ => true, fun _ _ => true⟩
    ["s", "a.jpg"] ["d"] "a.jpg" (by decide) (by simp) (by simp)

/-- C3: PhotoOrganizer::get_date attempts the exif path first — when
it succeeds the filename path is irrelevant (the result does not
depend on it) — and exactly when it fails the filename path decides
the outcome; when both fail the returned chain is the whole exif
report followed by the filename report. -/
theorem c3_date_fallback_chain (exifRaw : Except Report (Nat × Nat))
    (fileName : Option (List Char)) :
    (∀ d, PhotoOrganizer.date_from_exif exifRaw = .ok d →
      PhotoOrganizer.get_date exifRaw fileName = .ok d) ∧
    (∀ e, PhotoOrganizer.date_from_exif exifRaw = .error e →
      PhotoOrganizer.get_date exifRaw fileName =
        wrapReport ("failed to get date from exif" :: e)
          (wrapErr "failed to get date from filename"
            (PhotoOrganizer.date_from_filename fileName))) ∧
    (∀ e e2, PhotoOrganizer.date_from_exif exifRaw = .error e →
      PhotoOrganizer.date_from_filename fileName = .err e2 →
      PhotoOrganizer.get_date exifRaw fileName =
        .err (("failed to get date from exif" :: e) ++
              ("failed to get date from filename" :: e2))) := by
  refine ⟨fun d hd => ?_, fun e he => ?_, fun e e2 he h2 => ?_⟩
  · simp only [PhotoOrganizer.get_date, PhotoOrganizer.get_dateWith, hd, wrapE]
  · simp only [PhotoOrganizer.get_date, PhotoOrganizer.get_dateWith, he, wrapE,
      PhotoOrganizer.date_from_filename]
  · simp only [PhotoOrganizer.get_date, PhotoOrganizer.get_dateWith, he, wrapE,
      PhotoOrganizer.date_from_filename] at *
    rw [h2]
    simp [wrapErr, wrapReport]

/-- Witness for C3: an unreadable photo with an unmatched filename
produces the compound chain holding both failures. -/
theorem c3_date_fallback_chain_witness :
    PhotoOrganizer.get_date (.error ["failed to open file"]) (some ['x']) =
      .err ["failed to get date from exif", "failed to open file",
            "failed to get date from filename", "file name does not have date format"] :=
  (c3_date_fallback_chain (.error ["failed to open file"]) (some ['x'])).2.2
    ["failed to open file"] ["file name does not have date format"] rfl (by decide)

/-- C6: whenever PhotoOrganizer resolves a CaptureDate (year y, month
m) for a photo — from exif or from the WhatsApp filename pattern —
destination_dir is the root joined with the year string and the fixed
month label (m is in 1..12, so the label is the table entry); in
particular IMG-20200407-WA0004.jpg with failing exif yields
root/2020/04 - April. -/
theorem c6_photo_destination (root : FPath) (exifRaw : Except Report (Nat × Nat))
    (fileName : Option (List Char)) (y m : Nat) :
    (PhotoOrganizer.get_date exifRaw fileName = .ok ⟨y, m⟩ →
      1 ≤ m ∧ m ≤ 12 ∧
      PhotoOrganizer.destination_dir root exifRaw fileName =
        .ok (root ++ [toString y, Date.get_month ⟨y, m⟩])) ∧
    (∀ e0 : Report, PhotoOrganizer.destination_dir root (.error e0)
        (some "IMG-20200407-WA0004.jpg".toList) = .ok (root ++ ["2020", "04 - April"])) := by
  constructor
  · intro h
    have hb := photo_get_date_bounds (h.trans rfl : PhotoOrganizer.get_dateWith
      Char.isDigit exifRaw fileName = .ok ⟨y, m⟩)
    refine ⟨hb.2.2.1, hb.2.2.2, ?_⟩
    simp only [PhotoOrganizer.destination_dir, h, Date.get_year]
  · intro e0
    have hfn : PhotoOrganizer.date_from_filenameWith Char.isDigit
        (some "IMG-20200407-WA0004.jpg".toList) = .ok ⟨2020, 4⟩ := by decide
    have hget : PhotoOrganizer.get_date (.error e0)
        (some "IMG-20200407-WA0004.jpg".toList) = .ok ⟨2020, 4⟩ := by
      simp only [PhotoOrganizer.get_date, PhotoOrganizer.get_dateWith,
        PhotoOrganizer.date_from_exif, wrapE, hfn, wrapErr, wrapReport]
    simp only [PhotoOrganizer.destination_dir, hget, Date.get_year]
    have h1 : toString 2020 = "2020" := by decide
    have h2 : Date.get_month ⟨2020, 4⟩ = "04 - April" := by decide
    rw [h1, h2]

/-- Witness for C6: with failing exif and the WhatsApp name, a date
is resolved and the first conjunct applies at root ["r"]. -/
theorem c6_photo_destination_witness :
    1 ≤ 4 ∧ 4 ≤ 12 ∧
      PhotoOrganizer.destination_dir ["r"] (.error ["failed to open file"])
          (some "IMG-20200407-WA0004.jpg".toList) =
        .ok (["r"] ++ [toString 2020, Date.get_month ⟨2020, 4⟩]) :=
  (c6_photo_destination ["r"] (.error ["failed to open file"])
      (some "IMG-20200407-WA0004.jpg".toList) 2020 4).1 (by decide)

/-- C7: VideoOrganizer derives the date from the filename alone; on a
resolved date the destination is root/year with no month component;
20200829_205420.mp4 yields root/2020; and a filename the pattern does
not match makes destination_dir fail. -/
theorem c7_video_destination (root : FPath) (fileName : Option (List Char)) (y m : Nat) :
    (VideoOrganizer.get_date fileName = .ok ⟨y, m⟩ →
      VideoOrganizer.destination_dir root fileName = .ok (root ++ [toString y])) ∧
    (VideoOrganizer.destination_dir root (some "20200829_205420.mp4".toList) =
      .ok (root ++ ["2020"])) ∧
    (∀ name : List Char, videoCaptures name = none →
      VideoOrganizer.destination_dir root (some name) =
        .err ["failed to generate destination dir",
              "file name does not contain date in the format YYYYMMDD"]) := by
  refine ⟨fun h => ?_, ?_, fun name hn => ?_⟩
  · simp only [VideoOrganizer.destination_dir, h, wrapErr, Date.get_year]
  · have hd : VideoOrganizer.get_date (some "20200829_205420.mp4".toList) =
        .ok ⟨2020, 8⟩ := by decide
    simp only [VideoOrganizer.destination_dir, hd, wrapErr, Date.get_year]
    have h1 : toString 2020 = "2020" := by decide
    rw [h1]
  · have hg : VideoOrganizer.get_date (some name) =
        .err ["file name does not contain date in the format YYYYMMDD"] := by
      simp only [VideoOrganizer.get_date, VideoOrganizer.get_dateWith]
      rw [show videoCapturesWith Char.isDigit name = none from hn]
    simp only [VideoOrganizer.destination_dir, hg, wrapErr]

/-- Witness for C7: the resolved date of 20200829_205420.mp4 gives
root/2020 through the first conjunct, and VID_20200829-x.doc does not
match, giving the failure of the third conjunct. -/
theorem c7_video_destination_witness :
    VideoOrganizer.destination_dir ["r"] (some "20200829_205420.mp4".toList) =
        .ok (["r"] ++ [toString 2020]) ∧
      VideoOrganizer.destination_dir ["r"] (some "VID_20200829-x.doc".toList) =
        .err ["failed to generate destination dir",
              "file name does not contain date in the format YYYYMMDD"] :=
  ⟨(c7_video_destination ["r"] (some "20200829_205420.mp4".toList) 2020 8).1 (by decide),
   (c7_video_destination ["r"] (some []) 2020 8).2.2
     "VID_20200829-x.doc".toList (by decide)⟩

/-- An ASCII digit character has code point between 48 and 57. -/
theorem isDigit_bounds {c : Char} (h : c.isDigit = true) : 48 ≤ c.toNat ∧ c.toNat ≤ 57 := by
  simp only [Char.isDigit, Bool.and_eq_true, decide_eq_true_eq] at h
  exact ⟨UInt32.le_toNat_of_le (by norm_num) h.1, UInt32.toNat_le_of_le (by norm_num) h.2⟩

/-- parseNatBounded on a string not starting with a plus sign is the
plain bounded digit parse. -/
theorem parseNatBounded_not_plus {bound : Nat} {c : Char} {cs : List Char} (hc : c ≠ '+') :
    parseNatBounded bound (c :: cs) =
      if c :: cs ≠ [] ∧ (c :: cs).all Char.isDigit = true ∧ digitsVal (c :: cs) < bound then
        some (digitsVal (c :: cs))
      else none := by
  unfold parseNatBounded
  split
  · rename_i heq
    injection heq with h1 h2
    exact absurd h1 hc
  · rfl

/-- parse::<u16> succeeds on any four ASCII digits: the value is below
10000, well inside u16. -/
theorem parseU16_four_digits {a b c d : Char}
    (h : ([a, b, c, d].all Char.isDigit) = true) :
    parseU16 [a, b, c, d] = some (digitsVal [a, b, c, d]) ∧ digitsVal [a, b, c, d] < 10000 := by
  simp only [List.all_cons, List.all_nil, Bool.and_eq_true, Bool.and_true] at h
  obtain ⟨ha, hb, hc, hd⟩ := h
  have Ha := isDigit_bounds ha
  have Hb := isDigit_bounds hb
  have Hc := isDigit_bounds hc
  have Hd := isDigit_bounds hd
  have hv : digitsVal [a, b, c, d] < 10000 := by
    simp only [digitsVal, List.foldl]
    omega
  have hplus : a ≠ '+' := by
    intro he
    rw [he] at Ha
    revert Ha
    decide
  refine ⟨?_, hv⟩
  rw [parseU16, parseNatBounded_not_plus hplus, if_pos]
  refine ⟨by simp, by simp [ha, hb, hc, hd], by omega⟩

/-- parse::<u8> succeeds on any two ASCII digits: the value is below
100, well inside u8. -/
theorem parseU8_two_digits {a b : Char}
    (h : ([a, b].all Char.isDigit) = true) :
    parseU8 [a, b] = some (digitsVal [a, b]) ∧ digitsVal [a, b] < 100 := by
  simp only [List.all_cons, List.all_nil, Bool.and_eq_true, Bool.and_true] at h
  obtain ⟨ha, hb⟩ := h
  have Ha := isDigit_bounds ha
  have Hb := isDigit_bounds hb
  have hv : digitsVal [a, b] < 100 := by
    simp only [digitsVal, List.foldl]
    omega
  have hplus : a ≠ '+' := by
    intro he
    rw [he] at Ha
    revert Ha
    decide
  refine ⟨?_, hv⟩
  rw [parseU8, parseNatBounded_not_plus hplus, if_pos]
  refine ⟨by simp, by simp [ha, hb], by omega⟩

/-- The photo regex captures are four resp. two characters of its
digit class. -/
theorem photoCapturesWith_shape {digit : Char → Bool} {cs y m : List Char}
    (h : photoCapturesWith digit cs = some (y, m)) :
    ∃ y1 y2 y3 y4 m1 m2, y = [y1, y2, y3, y4] ∧ m = [m1, m2] ∧
      ([y1, y2, y3, y4, m1, m2].all digit) = true := by
  unfold photoCapturesWith at h
  split at h
  · rename_i p1 p2 p3 p4 y1 y2 y3 y4 m1 m2 d1 d2 q1 q2 q3 rest
    split_ifs at h with hg
    · split at h
      · simp at h
      · split_ifs at h with ht
        injection h with h
        injection h with hy hm
        refine ⟨y1, y2, y3, y4, m1, m2, hy.symm, hm.symm, ?_⟩
        simp only [List.all_cons, Bool.and_eq_true] at hg ⊢
        exact ⟨hg.2.2.1, hg.2.2.2.1, hg.2.2.2.2.1, hg.2.2.2.2.2.1, hg.2.2.2.2.2.2.1,
          hg.2.2.2.2.2.2.2.1, by simp⟩
      · simp at h
  · simp at h

/-- The video regex body captures are four resp. two characters of its
digit class. -/
theorem videoCapturesCore_shape {digit : Char → Bool} {cs y m : List Char}
    (h : videoCapturesCore digit cs = some (y, m)) :
    ∃ y1 y2 y3 y4 m1 m2, y = [y1, y2, y3, y4] ∧ m = [m1, m2] ∧
      ([y1, y2, y3, y4, m1, m2].all digit) = true := by
  unfold videoCapturesCore at h
  split at h
  · rename_i y1 y2 y3 y4 m1 m2 d1 d2 s rest
    split_ifs at h with hg
    injection h with h
    injection h with hy hm
    refine ⟨y1, y2, y3, y4, m1, m2, hy.symm, hm.symm, ?_⟩
    have hd := hg.1
    simp only [List.all_cons, Bool.and_eq_true] at hd ⊢
    exact ⟨hd.1, hd.2.1, hd.2.2.1, hd.2.2.2.1, hd.2.2.2.2.1, hd.2.2.2.2.2.1, by simp⟩
  · simp at h

/-- The video regex captures are four resp. two characters of its
digit class. -/
theorem videoCapturesWith_shape {digit : Char → Bool} {cs y m : List Char}
    (h : videoCapturesWith digit cs = some (y, m)) :
    ∃ y1 y2 y3 y4 m1 m2, y = [y1, y2, y3, y4] ∧ m = [m1, m2] ∧
      ([y1, y2, y3, y4, m1, m2].all digit) = true := by
  unfold videoCapturesWith at h
  split at h
  · split_ifs at h
    · exact videoCapturesCore_shape h
    · exact videoCapturesCore_shape h
  · exact videoCapturesCore_shape h

/-- C10 (code_bug evidence): on captures of the ASCII digit class both
unchecked parses indeed always succeed with values fitting u16 and u8
— but the regex digit class is the Unicode class Nd, not the ASCII
digits, and a filename whose year group uses Arabic-Indic digits is
accepted by the regex while parse::<u16> rejects it, so the
.unwrap() in date_from_filename panics (the .panic outcome):
extraction is not total. -/
theorem c10_parse_totality_vs_unicode_panic (name y m : List Char) :
    (photoCaptures name = some (y, m) →
      parseU16 y = some (digitsVal y) ∧ digitsVal y < 10000 ∧
      parseU8 m = some (digitsVal m) ∧ digitsVal m < 100) ∧
    (videoCaptures name = some (y, m) →
      parseU16 y = some (digitsVal y) ∧ digitsVal y < 10000 ∧
      parseU8 m = some (digitsVal m) ∧ digitsVal m < 100) ∧
    PhotoOrganizer.date_from_filenameNd (some "IMG-٢٠٢٠0407-WA1.jpg".toList) =
      .panic := by
  refine ⟨fun h => ?_, fun h => ?_, by decide⟩
  · obtain ⟨y1, y2, y3, y4, m1, m2, hy, hm, hall⟩ := photoCapturesWith_shape h
    subst hy; subst hm
    simp only [List.all_cons, Bool.and_eq_true, Bool.and_true, List.all_nil] at hall
    obtain ⟨h1, h2, h3, h4, h5, h6⟩ := hall
    obtain ⟨p16, b16⟩ := @parseU16_four_digits y1 y2 y3 y4 (by simp [h1, h2, h3, h4])
    obtain ⟨p8, b8⟩ := @parseU8_two_digits m1 m2 (by simp [h5, h6])
    exact ⟨p16, b16, p8, b8⟩
  · obtain ⟨y1, y2, y3, y4, m1, m2, hy, hm, hall⟩ := videoCapturesWith_shape h
    subst hy; subst hm
    simp only [List.all_cons, Bool.and_eq_true, Bool.and_true, List.all_nil] at hall
    obtain ⟨h1, h2, h3, h4, h5, h6⟩ := hall
    obtain ⟨p16, b16⟩ := @parseU16_four_digits y1 y2 y3 y4 (by simp [h1, h2, h3, h4])
    obtain ⟨p8, b8⟩ := @parseU8_two_digits m1 m2 (by simp [h5, h6])
    exact ⟨p16, b16, p8, b8⟩

/-- Witness for C10 at the ASCII capture of IMG-20200407-WA0004.jpg
and the video capture of 20200829_205420.mp4. -/
theorem c10_parse_totality_vs_unicode_panic_witness :
    (parseU16 "2020".toList = some (digitsVal "2020".toList) ∧
      digitsVal "2020".toList < 10000 ∧
      parseU8 "04".toList = some (digitsVal "04".toList) ∧
      digitsVal "04".toList < 100) ∧
    (parseU16 "2020".toList = some (digitsVal "2020".toList) ∧
      digitsVal "2020".toList < 10000 ∧
      parseU8 "08".toList = some (digitsVal "08".toList) ∧
      digitsVal "08".toList < 100) :=
  ⟨(c10_parse_totality_vs_unicode_panic "IMG-20200407-WA0004.jpg".toList
      "2020".toList "04".toList).1 (by decide),
   (c10_parse_totality_vs_unicode_panic "20200829_205420.mp4".toList
      "2020".toList "08".toList).2.1 (by decide)⟩

/-- C9 counterexample: the configuration (media_src "src",
photos_dst "", videos_dst "vids") with both named directories
existing validates, yet main still registers a PhotoClassifier — with
an empty destination root — so registration is not conditioned on the
photos destination being non-empty. -/
theorem c9_counterexample_empty_photos_registered :
    Config.new (fun s => s = "src" || s = "vids") "src" "" "vids" =
      .ok ⟨"src", "", "vids"⟩ ∧
    mainOrganizers ⟨"src", "", "vids"⟩ =
      [RegisteredOrganizer.photo "", RegisteredOrganizer.video "vids"] ∧
    ("" : String).isEmpty = true := by
  exact ⟨rfl, rfl, rfl⟩

/-- C9 amended: Config::new rejects a configuration with zero
non-empty destinations, and for every configuration it validates main
registers both classifiers unconditionally — the photo classifier
with root photos_dst and the video classifier with root videos_dst —
independent of which destinations are non-empty (at least one of the
two is). -/
theorem c9_registration (isDir : String → Bool) (m p v : String) :
    (p.isEmpty = true → v.isEmpty = true → ∃ e, Config.new isDir m p v = .error e) ∧
    (∀ cfg, Config.new isDir m p v = .ok cfg →
      mainOrganizers cfg =
        [RegisteredOrganizer.photo cfg.photos_dst, RegisteredOrganizer.video cfg.videos_dst] ∧
      (cfg.photos_dst.isEmpty = false ∨ cfg.videos_dst.isEmpty = false)) := by
  constructor
  · intro hp hv
    simp only [Config.new]
    split_ifs with h1 h2 h3 h4
    · exact ⟨_, rfl⟩
    · exact ⟨_, rfl⟩
    · exact ⟨_, rfl⟩
    · exact ⟨_, rfl⟩
    · exact absurd (by rw [hp, hv]; rfl) h2
  · intro cfg hcfg
    simp only [Config.new] at hcfg
    split_ifs at hcfg with h1 h2 h3 h4 hp hv hv2
    · exact absurd (by rw [hp, hv]; rfl) h2
    · cases hcfg
      simp only [Bool.not_eq_true] at hv
      exact ⟨rfl, Or.inr hv⟩
    · cases hcfg
      simp only [Bool.not_eq_true] at hp
      exact ⟨rfl, Or.inl hp⟩
    · cases hcfg
      simp only [Bool.not_eq_true] at hp
      exact ⟨rfl, Or.inl hp⟩

/-- Witness for C9 amended: both-empty destinations are rejected, and
the validated config ("src", "", "vids") registers both classifiers
with a non-empty videos destination. -/
theorem c9_registration_witness :
    (∃ e, Config.new (fun s => s = "src" || s = "vids") "src" "" "" = .error e) ∧
    (mainOrganizers ⟨"src", "", "vids"⟩ =
        [RegisteredOrganizer.photo "", RegisteredOrganizer.video "vids"] ∧
      ((("" : String).isEmpty = false) ∨ (("vids" : String).isEmpty = false))) :=
  ⟨(c9_registration (fun s => s = "src" || s = "vids") "src" "" "").1 rfl rfl,
   (c9_registration (fun s => s = "src" || s = "vids") "src" "" "vids").2
     ⟨"src", "", "vids"⟩ rfl⟩

/-- organize returns Ok(()) on every file list and state. -/
theorem organize_fst_ok {σ : Type} (move : σ → FPath → FPath → Except Report Unit × σ)
    (orgs : List (MediaTypeOrganizerSpec σ)) :
    ∀ (files : List FPath) (s : σ), (Organizer.organize move orgs files s).1 = .ok ()
  | [], _ => rfl
  | _ :: rest, s => by
    simp only [Organizer.organize]
    exact organize_fst_ok move orgs rest _

/-- C2: organize never propagates a per-file failure: its result is
Ok(()) for every input, and its run over a file list decomposes over
any split of that list — the suffix is still processed, from the
state the prefix left, whatever happened in the prefix (no abort
before the enumerated sequence is exhausted); failures only add log
events. -/
theorem c2_organize_total {σ : Type} (move : σ → FPath → FPath → Except Report Unit × σ)
    (orgs : List (MediaTypeOrganizerSpec σ)) (fs1 fs2 : List FPath) (s : σ) :
    (Organizer.organize move orgs (fs1 ++ fs2) s).1 = .ok () ∧
    Organizer.organize move orgs (fs1 ++ fs2) s =
      (.ok (),
        (Organizer.organize move orgs fs2 (Organizer.organize move orgs fs1 s).2.1).2.1,
        (Organizer.organize move orgs fs1 s).2.2 ++
          (Organizer.organize move orgs fs2 (Organizer.organize move orgs fs1 s).2.1).2.2) := by
  refine ⟨organize_fst_ok move orgs _ s, ?_⟩
  induction fs1 generalizing s with
  | nil =>
    have h1 := organize_fst_ok move orgs fs2 s
    simp only [List.nil_append, Organizer.organize]
    rcases hE : Organizer.organize move orgs fs2 s with ⟨a, b, c⟩
    rw [hE] at h1
    simp only at h1
    subst h1
    simp
  | cons f fs1 ih =>
    simp only [List.cons_append, Organizer.organize, List.append_eq]
    rw [ih]
    simp [List.append_assoc]

/-- Every destCall event of the classifier loop names the processed
file and a classifier — at its registration index — whose
should_organize accepted that file. -/
theorem processFile_destCall {σ : Type} {move : σ → FPath → FPath → Except Report Unit × σ}
    {f g : FPath} {j : Nat} :
    ∀ (orgs : List (MediaTypeOrganizerSpec σ)) (i : Nat) (s : σ),
      Event.destCall j g ∈ (Organizer.processFile move f orgs i s).2 →
      g = f ∧ i ≤ j ∧
        ∃ o, orgs.get? (j - i) = some o ∧ o.should_organize f = true := by
  intro orgs
  induction orgs with
  | nil => intro i s h; simp [Organizer.processFile] at h
  | cons o rest ih =>
    intro i s h
    simp only [Organizer.processFile] at h
    by_cases hs : o.should_organize f = true
    · rw [if_pos hs] at h
      have hstep : ∀ (s' : σ),
          Event.destCall j g ∈ (Organizer.processFile move f rest (i + 1) s').2 →
          g = f ∧ i ≤ j ∧
            ∃ o2, (o :: rest).get? (j - i) = some o2 ∧ o2.should_organize f = true := by
        intro s' hm
        obtain ⟨hg, hij, o2, hget, hsh⟩ := ih (i + 1) s' hm
        refine ⟨hg, by omega, o2, ?_, hsh⟩
        have : j - i = (j - (i + 1)) + 1 := by omega
        rw [this]
        simpa using hget
      have hhead : Event.destCall j g = Event.destCall i f →
          g = f ∧ i ≤ j ∧
            ∃ o2, (o :: rest).get? (j - i) = some o2 ∧ o2.should_organize f = true := by
        intro he
        injection he with h1 h2
        subst h1; subst h2
        exact ⟨rfl, Nat.le_refl _, o, by simp, hs⟩
      rcases hdest : o.destination_dir s f with e | d
      · simp only [hdest, List.mem_cons] at h
        rcases h with he | he | he
        · exact hhead he
        · simp at he
        · exact hstep s he
      · simp only [hdest] at h
        rcases hmv : move s f d with ⟨mr, s1⟩
        simp only [hmv] at h
        cases mr with
        | ok u =>
          simp only [List.mem_cons, List.not_mem_nil, or_false] at h
          rcases h with he | he
          · exact hhead he
          · simp at he
        | error e =>
          simp only [List.mem_cons] at h
          rcases h with he | he | he
          · exact hhead he
          · simp at he
          · exact hstep s1 he
    · rw [if_neg hs] at h
      obtain ⟨hg, hij, o2, hget, hsh⟩ := ih (i + 1) s h
      refine ⟨hg, by omega, o2, ?_, hsh⟩
      have : j - i = (j - (i + 1)) + 1 := by omega
      rw [this]
      simpa using hget

/-- A successful move ends the classifier loop: a moveOk event is the
last event of the file trace (the break in organizer.rs line 66). -/
theorem processFile_moveOk_last {σ : Type} {move : σ → FPath → FPath → Except Report Unit × σ}
    {f g : FPath} {j : Nat} :
    ∀ (orgs : List (MediaTypeOrganizerSpec σ)) (i : Nat) (s : σ),
      Event.moveOk j g ∈ (Organizer.processFile move f orgs i s).2 →
      (Organizer.processFile move f orgs i s).2.getLast? = some (Event.moveOk j g) := by
  intro orgs
  induction orgs with
  | nil => intro i s h; simp [Organizer.processFile] at h
  | cons o rest ih =>
    intro i s h
    simp only [Organizer.processFile] at h ⊢
    by_cases hs : o.should_organize f = true
    · rw [if_pos hs] at h ⊢
      rcases hdest : o.destination_dir s f with e | d
      · simp only [hdest, List.mem_cons] at h
        simp only [hdest]
        rcases h with he | he | he
        · simp at he
        · simp at he
        · have hl := ih (i + 1) s he
          rcases hT : (Organizer.processFile move f rest (i + 1) s).2 with _ | ⟨x, xs⟩
          · rw [hT] at he; simp at he
          · rw [hT] at hl
            simp only [List.getLast?_cons_cons]
            exact hl
      · simp only [hdest] at h ⊢
        rcases hmv : move s f d with ⟨mr, s1⟩
        simp only [hmv] at h ⊢
        cases mr with
        | ok u =>
          simp only [List.mem_cons, List.not_mem_nil, or_false] at h
          rcases h with he | he
          · simp at he
          · injection he with h1 h2
            subst h1; subst h2
            rfl
        | error e =>
          simp only [List.mem_cons] at h ⊢
          rcases h with he | he | he
          · simp at he
          · simp at he
          · have hl := ih (i + 1) s1 he
            rcases hT : (Organizer.processFile move f rest (i + 1) s1).2 with _ | ⟨x, xs⟩
            · rw [hT] at he; simp at he
            · rw [hT] at hl
              simp only [hT, List.getLast?_cons_cons]
              exact hl
    · rw [if_neg hs] at h ⊢
      exact ih (i + 1) s h

/-- Lifting processFile_destCall to the whole organize run. -/
theorem organize_destCall {σ : Type} {move : σ → FPath → FPath → Except Report Unit × σ}
    {orgs : List (MediaTypeOrganizerSpec σ)} {j : Nat} {g : FPath} :
    ∀ (files : List FPath) (s : σ),
      Event.destCall j g ∈ (Organizer.organize move orgs files s).2.2 →
      ∃ o, orgs.get? j = some o ∧ o.should_organize g = true := by
  intro files
  induction files with
  | nil => intro s h; simp [Organizer.organize] at h
  | cons f rest ih =>
    intro s h
    simp only [Organizer.organize] at h
    rw [List.mem_append] at h
    rcases h with h | h
    · obtain ⟨hg, _, o, hget, hsh⟩ := processFile_destCall orgs 0 s h
      subst hg
      exact ⟨o, by simpa using hget, hsh⟩
    · exact ih _ h

/-- C4: in any organize run, a destination_dir invocation (destCall
event) only happens for a registered classifier whose should_organize
returned true on that file; and within a file, once a classifier
successfully moves it (moveOk event) no later classifier is tried —
the moveOk event closes the file trace. -/
theorem c4_dispatch_invariant {σ : Type} (move : σ → FPath → FPath → Except Report Unit × σ)
    (orgs : List (MediaTypeOrganizerSpec σ)) (files : List FPath) (s : σ)
    (j : Nat) (g : FPath) :
    (Event.destCall j g ∈ (Organizer.organize move orgs files s).2.2 →
      ∃ o, orgs.get? j = some o ∧ o.should_organize g = true) ∧
    (∀ f, Event.moveOk j g ∈ (Organizer.processFile move f orgs 0 s).2 →
      (Organizer.processFile move f orgs 0 s).2.getLast? = some (Event.moveOk j g)) :=
  ⟨fun h => organize_destCall files s h,
   fun _ h => processFile_moveOk_last orgs 0 s h⟩

/-- Witness for C4 on a one-classifier, one-file run whose move
succeeds. -/
theorem c4_dispatch_invariant_witness :
    (∃ o, ([⟨fun _ => true, fun _ _ => .ok ["d"]⟩] :
        List (MediaTypeOrganizerSpec Unit)).get? 0 = some o ∧
      o.should_organize ["f"] = true) ∧
    (Organizer.processFile (fun s _ _ => (.ok (), s)) ["f"]
        [⟨fun _ => true, fun _ _ => .ok ["d"]⟩] 0 ()).2.getLast? =
      some (Event.moveOk 0 ["f"]) :=
  ⟨(c4_dispatch_invariant (fun s _ _ => (.ok (), s))
      [⟨fun _ => true, fun _ _ => .ok ["d"]⟩] [["f"]] () 0 ["f"]).1 (by decide),
   (c4_dispatch_invariant (fun s _ _ => (.ok (), s))
      [⟨fun _ => true, fun _ _ => .ok ["d"]⟩] [["f"]] () 0 ["f"]).2 ["f"] (by decide)⟩

/-- The entry loop preserves the traversal invariants: every pushed
directory and buffered file is reachable from the root without
passing through a symlinked entry, and is itself not symlinked (the
root itself is exempt only as the traversal start). -/
theorem processEntries_inv (fs : SymFS) (root d0 : FPath)
    (hd0 : NoSymReach fs root d0) (entries0 : List FPath)
    (hrd : fs.readDir d0 = some entries0) :
    ∀ (entries dirs files : List FPath),
      (∀ e ∈ entries, e ∈ entries0) →
      (∀ d ∈ dirs, NoSymReach fs root d ∧ (d = root ∨ fs.isSymlink d = false)) →
      (∀ f ∈ files, NoSymReach fs root f ∧ fs.isSymlink f = false) →
      (∀ d ∈ (FilesIter.processEntries fs entries dirs files).1,
        NoSymReach fs root d ∧ (d = root ∨ fs.isSymlink d = false)) ∧
      (∀ f ∈ (FilesIter.processEntries fs entries dirs files).2,
        NoSymReach fs root f ∧ fs.isSymlink f = false) := by
  intro entries
  induction entries with
  | nil => intro dirs files _ hd hf; exact ⟨hd, hf⟩
  | cons p rest ih =>
    intro dirs files hent hd hf
    simp only [FilesIter.processEntries]
    by_cases hsym : fs.isSymlink p = true
    · rw [if_pos hsym]
      exact ih dirs files (fun e he => hent e (List.mem_cons_of_mem _ he)) hd hf
    · have hsym' : fs.isSymlink p = false := by
        cases hb : fs.isSymlink p
        · rfl
        · exact absurd hb hsym
      rw [if_neg hsym]
      have hp : NoSymReach fs root p :=
        NoSymReach.step hd0 hrd (hent p (List.mem_cons_self p rest)) hsym'
      by_cases hdir : fs.isDir p = true
      · rw [if_pos hdir]
        refine ih (p :: dirs) files (fun e he => hent e (List.mem_cons_of_mem _ he)) ?_ hf
        intro d hdm
        rcases List.mem_cons.mp hdm with rfl | hdm
        · exact ⟨hp, Or.inr hsym'⟩
        · exact hd d hdm
      · rw [if_neg hdir]
        by_cases hfile : fs.isFile p = true
        · rw [if_pos hfile]
          refine ih dirs (p :: files) (fun e he => hent e (List.mem_cons_of_mem _ he)) hd ?_
          intro q hq
          rcases List.mem_cons.mp hq with rfl | hq
          · exact ⟨hp, hsym'⟩
          · exact hf q hq
        · rw [if_neg hfile]
          exact ih dirs files (fun e he => hent e (List.mem_cons_of_mem _ he)) hd hf

/-- The fueled iterator run preserves the traversal invariants on
both its yield sequence and its list of expanded directories. -/
theorem runIter_inv (fs : SymFS) (root : FPath) :
    ∀ (fuel : Nat) (dirs files : List FPath),
      (∀ d ∈ dirs, NoSymReach fs root d ∧ (d = root ∨ fs.isSymlink d = false)) →
      (∀ f ∈ files, NoSymReach fs root f ∧ fs.isSymlink f = false) →
      (∀ f ∈ (FilesIter.runIter fs fuel dirs files).1,
        NoSymReach fs root f ∧ fs.isSymlink f = false) ∧
      (∀ d ∈ (FilesIter.runIter fs fuel dirs files).2,
        NoSymReach fs root d ∧ (d = root ∨ fs.isSymlink d = false)) := by
  intro fuel
  induction fuel with
  | zero =>
    intro dirs files _ _
    exact ⟨by simp [FilesIter.runIter], by simp [FilesIter.runIter]⟩
  | succ fuel ih =>
    intro dirs files hd hf
    cases files with
    | cons f fRest =>
      simp only [FilesIter.runIter]
      have hff := hf f (List.mem_cons_self f fRest)
      have hrec := ih dirs fRest hd (fun q hq => hf q (List.mem_cons_of_mem _ hq))
      constructor
      · intro q hq
        rcases List.mem_cons.mp hq with rfl | hq
        · exact hff
        · exact hrec.1 q hq
      · exact hrec.2
    | nil =>
      cases dirs with
      | nil => exact ⟨by simp [FilesIter.runIter], by simp [FilesIter.runIter]⟩
      | cons d dRest =>
        simp only [FilesIter.runIter]
        have hdd := hd d (List.mem_cons_self d dRest)
        have hdtail : ∀ q ∈ dRest, NoSymReach fs root q ∧
            (q = root ∨ fs.isSymlink q = false) :=
          fun q hq => hd q (List.mem_cons_of_mem _ hq)
        rcases hrd : fs.readDir d with _ | entries
        · have hrec := ih dRest [] hdtail (by simp)
          constructor
          · exact hrec.1
          · intro q hq
            rcases List.mem_cons.mp hq with rfl | hq
            · exact hdd
            · exact hrec.2 q hq
        · have hpe := processEntries_inv fs root d hdd.1 entries hrd entries dRest []
            (fun e he => he) hdtail (by simp)
          have hrec := ih (FilesIter.processEntries fs entries dRest []).1
            (FilesIter.processEntries fs entries dRest []).2 hpe.1 hpe.2
          constructor
          · exact hrec.1
          · intro q hq
            rcases List.mem_cons.mp hq with rfl | hq
            · exact hdd
            · exact hrec.2 q hq

/-- C8: a FilesIter run never yields a symlinked path, every yielded
file is reachable from the root through non-symlinked entries only
(never through a symlinked directory), and every directory it expands
is the root or a non-symlinked directory reached the same way —
entries whose link-read succeeds are neither traversed nor yielded. -/
theorem c8_no_symlink_traversal (fs : SymFS) (root : FPath) (fuel : Nat) :
    (∀ f ∈ (FilesIter.run fs fuel root).1,
      fs.isSymlink f = false ∧ NoSymReach fs root f) ∧
    (∀ d ∈ (FilesIter.run fs fuel root).2,
      NoSymReach fs root d ∧ (d = root ∨ fs.isSymlink d = false)) := by
  have h := runIter_inv fs root fuel [root] []
    (by
      intro d hd
      rw [List.mem_singleton] at hd
      subst hd
      exact ⟨NoSymReach.start, Or.inl rfl⟩)
    (by simp)
  exact ⟨fun f hf => ⟨(h.1 f hf).2, (h.1 f hf).1⟩, h.2⟩

/-- A concrete two-level source tree without symlinks, used to witness
the traversal theorem. -/
def sampleTreeFS : SymFS :=
  ⟨fun p =>
      if p = ["r"] then some [["r", "sub"], ["r", "a.jpg"]]
      else if p = ["r", "sub"] then some [["r", "sub", "b.mp4"]]
      else none,
   fun _ => false,
   fun p => p = ["r"] || p = ["r", "sub"],
   fun p => p = ["r", "a.jpg"] || p = ["r", "sub", "b.mp4"]⟩

/-- Witness for C8: the file r/a.jpg yielded by a run over the sample
tree is not a symlink and is reachable without symlinks. -/
theorem c8_no_symlink_traversal_witness :
    sampleTreeFS.isSymlink ["r", "a.jpg"] = false ∧
      NoSymReach sampleTreeFS ["r"] ["r", "a.jpg"] :=
  (c8_no_symlink_traversal sampleTreeFS ["r"] 10).1 ["r", "a.jpg"] (by decide)
